import Mathlib

/-!
# Verification of the `kkp` port-killer core

A shallow embedding of the core of `kkp` (a CLI that finds which process owns
a listening port and terminates it), together with theorems checking the
natural-language specification against it.

Embedded components (each definition is translated from the TypeScript
source, file and function named in its doc comment):

* the `Listener` data model and the discovery deduplication (`uniqBy`,
  `dedupe` from `src/utils/strings.ts` / `src/core/finder/linux.ts`);
* the safety classifier `protectionFor` (`src/core/safety.ts`);
* the `ss` and `netstat` output parsers (`src/core/finder/linux.ts`,
  `src/core/finder/windows.ts`);
* the POSIX kill state machine (`src/core/killer/posix.ts`) and the Windows
  `taskkill` outcome classifier (`src/core/killer/windows.ts`), with the
  external process world (signal outcomes, liveness polls, command outputs)
  passed in explicitly;
* the interactive selection engine's keystroke state machine
  (`src/ui/tui.ts`);
* the per-call-site `execFile` timeout options (`src/utils/exec.ts` and the
  finder/killer strategies).

JavaScript strings are modelled as `List Char`; JavaScript numbers that
hold integers (pids, ports, timeouts) are modelled as `Int`.
-/

namespace Kkp

/-! ## JavaScript string primitives

Character-level models of the string operations the source uses
(`trim`, `split(/\s+/)`, `split(/\r?\n/)`, `toLowerCase`, `includes`,
`endsWith`, and the specific regexes).  Strings are `List Char`. -/

/-- Characters matched by the JavaScript regex class `\s` (the ones that can
realistically occur in tool output). -/
def isJsWs (c : Char) : Bool :=
  c = ' ' || c = '\t' || c = '\n' || c = '\r' || c = '\x0b' || c = '\x0c' || c = ' '

/-- JavaScript `String.prototype.trim`. -/
def jsTrim (s : List Char) : List Char :=
  ((s.dropWhile isJsWs).reverse.dropWhile isJsWs).reverse

/-- JavaScript `String.prototype.toLowerCase` (ASCII letters; the only
case-sensitive patterns in the source are ASCII). -/
def toLowerCL (s : List Char) : List Char :=
  s.map Char.toLower

/-- Whether `pat` is a prefix of `s` (char-by-char). -/
def isPrefixCL : List Char → List Char → Bool
  | [], _ => true
  | _ :: _, [] => false
  | a :: as, b :: bs => a = b && isPrefixCL as bs

/-- Whether `pat` is a suffix of `s`; models `String.prototype.endsWith`. -/
def isSuffixCL (pat s : List Char) : Bool :=
  isPrefixCL pat.reverse s.reverse

/-- Whether `pat` occurs as a contiguous substring of `s`; models
`String.prototype.includes` and a `.test` of a literal-only regex. -/
def containsCL (pat : List Char) : List Char → Bool
  | [] => isPrefixCL pat []
  | c :: rest => isPrefixCL pat (c :: rest) || containsCL pat rest

mutual

/-- JavaScript `s.split(/\s+/)`: accumulating a token. `acc` holds the
current token reversed. -/
def splitWsGo : List Char → List Char → List (List Char)
  | [], acc => [acc.reverse]
  | c :: rest, acc =>
    if isJsWs c then acc.reverse :: splitWsSkip rest
    else splitWsGo rest (c :: acc)

/-- JavaScript `s.split(/\s+/)`: inside a run of separator whitespace. -/
def splitWsSkip : List Char → List (List Char)
  | [] => [[]]
  | c :: rest => if isJsWs c then splitWsSkip rest else splitWsGo rest [c]

end

/-- JavaScript `s.split(/\s+/)`.  A leading (resp. trailing) whitespace run
produces a leading (resp. trailing) empty token, exactly as in JS. -/
def splitWs (s : List Char) : List (List Char) :=
  splitWsGo s []

/-- JavaScript `s.split(/\r?\n/)`: a `\n` splits, consuming one `\r`
immediately before it; a lone `\r` does not split.  `acc` holds the current
line reversed. -/
def splitLinesGo : List Char → List Char → List (List Char)
  | [], acc => [acc.reverse]
  | c :: rest, acc =>
    if c = '\n' then acc.reverse :: splitLinesGo rest []
    else if c = '\r' then
      if rest.head? = some '\n' then acc.reverse :: splitLinesGo rest.tail []
      else splitLinesGo rest (c :: acc)
    else splitLinesGo rest (c :: acc)
termination_by s _ => s.length
decreasing_by all_goals simp [List.length_tail] <;> omega

/-- JavaScript `s.split(/\r?\n/)`. -/
def splitLines (s : List Char) : List (List Char) :=
  splitLinesGo s []

/-- JavaScript `parseInt(s, 10)`: skip leading whitespace, optional sign,
then the maximal digit prefix; `none` models `NaN` (so that
`Number.isFinite(parseInt(s))` is `isSome`). -/
def jsParseInt (s : List Char) : Option Int :=
  let t := s.dropWhile isJsWs
  let (sign, digits?) : Int × List Char :=
    match t with
    | '-' :: rest => (-1, rest)
    | '+' :: rest => (1, rest)
    | _ => (1, t)
  let ds := digits?.takeWhile Char.isDigit
  if ds = [] then none
  else some (sign * (ds.foldl (fun n c => n * 10 + (c.toNat - '0'.toNat)) 0 : Nat))

/-- Value of a nonempty digit run (used by the address/port regexes, whose
`\d+` capture groups always go through `parseInt`). -/
def digitsVal (ds : List Char) : Int :=
  (ds.foldl (fun n c => n * 10 + (c.toNat - '0'.toNat)) 0 : Nat)

/-! ## Listener data model (`src/core/types.ts`) -/

/-- `Protocol = 'tcp' | 'udp'`. -/
inductive Protocol where
  | tcp
  | udp
deriving DecidableEq, Repr

/-- Rendering used by the template-literal dedup keys. -/
def Protocol.str : Protocol → String
  | .tcp => "tcp"
  | .udp => "udp"

/-- `interface Listener` from `src/core/types.ts`.  Optional fields are
`Option`; `port` and `pid` are JS numbers holding integers. -/
structure Listener where
  protocol : Protocol
  port : Int
  pid : Int
  localAddress : Option String := none
  processName : Option String := none
  command : Option String := none
  user : Option String := none
  raw : Option String := none
  source : Option String := none
deriving DecidableEq, Repr

/-! ## Deduplication (`uniqBy` from `src/utils/strings.ts`,
`dedupe` from `src/core/finder/linux.ts`) -/

/-- Loop of `uniqBy`: `seen` models the `Set<string>` of already-seen keys
(only membership is consulted, so a list model is faithful). -/
def uniqByGo (key : α → String) (seen : List String) : List α → List α
  | [] => []
  | x :: xs =>
    if key x ∈ seen then uniqByGo key seen xs
    else x :: uniqByGo key (key x :: seen) xs

/-- `uniqBy` from `src/utils/strings.ts`: keep the first item for each key. -/
def uniqBy (key : α → String) (items : List α) : List α :=
  uniqByGo key [] items

/-- The uniqueness key `` `${l.protocol}:${l.port}:${l.pid}:${l.localAddress ?? ''}` ``
used by `dedupe` (linux finder), the other finders and the TUI. -/
def listenerKey (l : Listener) : String :=
  l.protocol.str ++ ":" ++ toString l.port ++ ":" ++ toString l.pid ++ ":"
    ++ l.localAddress.getD ""

/-- `dedupe` from `src/core/finder/linux.ts`. -/
def dedupe (listeners : List Listener) : List Listener :=
  uniqBy listenerKey listeners

/-! ## Safety classifier (`src/core/safety.ts`)

`protectionFor` reads the ambient platform via `platform()`
(`src/utils/platform.ts`); here the platform is an explicit argument. -/

/-- `Platform` from `src/utils/platform.ts`. -/
inductive Platform where
  | win32
  | darwin
  | linux
  | other
deriving DecidableEq, Repr

/-- `interface Protection` (the source field `protected` is a Lean keyword,
hence the quoted name). -/
structure Protection where
  «protected» : Bool
  reason : Option String := none
deriving DecidableEq, Repr

/-- `POSIX_PROTECTED_NAMES` from `src/core/safety.ts`. -/
def POSIX_PROTECTED_NAMES : List String :=
  ["systemd", "launchd", "init", "kernel_task", "kthreadd",
   "systemd-journald", "systemd-logind", "sshd"]

/-- `WINDOWS_PROTECTED_NAMES` from `src/core/safety.ts`. -/
def WINDOWS_PROTECTED_NAMES : List String :=
  ["system", "system idle process", "registry", "smss.exe", "csrss.exe",
   "wininit.exe", "services.exe", "lsass.exe", "winlogon.exe", "svchost.exe"]

/-- The Windows `for (const n of WINDOWS_PROTECTED_NAMES)` loop:
`name === n || name.endsWith('\\' + n)` then `name.includes(n)`. -/
def winNameCheck (name : List Char) : List String → Option Protection
  | [] => none
  | n :: rest =>
    if name = n.data ∨ isSuffixCL ('\\' :: n.data) name then
      some { «protected» := true, reason := some "critical Windows process" }
    else if containsCL n.data name then
      some { «protected» := true, reason := some "critical Windows process" }
    else winNameCheck name rest

/-- The POSIX `for (const n of POSIX_PROTECTED_NAMES)` loop. -/
def posixNameCheck (name : List Char) : List String → Option Protection
  | [] => none
  | n :: rest =>
    if name = n.data then
      some { «protected» := true, reason := some "critical system process" }
    else if containsCL n.data name then
      some { «protected» := true, reason := some "critical system process" }
    else posixNameCheck name rest

/-- `protectionFor` from `src/core/safety.ts`. -/
def protectionFor (p : Platform) (l : Listener) : Protection :=
  let name := toLowerCL (l.processName.getD (l.command.getD "")).data
  if p ≠ .win32 ∧ l.pid ≤ 1 then
    { «protected» := true, reason := some "pid 1 (system init)" }
  else if p = .win32 ∧ (l.pid = 0 ∨ l.pid = 4) then
    { «protected» := true, reason := some "system process" }
  else
    let nameVerdict :=
      if p = .win32 then winNameCheck name WINDOWS_PROTECTED_NAMES
      else posixNameCheck name POSIX_PROTECTED_NAMES
    match nameVerdict with
    | some v => v
    | none =>
      if l.port = 22 ∧ containsCL "sshd".data name then
        { «protected» := true, reason := some "sshd (avoid locking yourself out)" }
      else { «protected» := false }

/-! ## `ss` output parser (`LinuxFinder`, `src/core/finder/linux.ts`) -/

/-- `parseAddrPort` from `linux.ts`: regex `/:(\d+)$/` — a trailing digit run
immediately preceded by a colon; the address is
`token.slice(0, token.length - (digits.length + 1))`, i.e. the text before
that colon.  The matched port may be `0`; the caller drops it
(`if (!port) continue`). -/
def parseAddrPort (token : List Char) : Option (Int × List Char) :=
  let rds := token.reverse.takeWhile Char.isDigit
  if rds = [] then none
  else
    match token.reverse.drop rds.length with
    | ':' :: pre => some (digitsVal rds.reverse, pre.reverse)
    | _ => none

/-- `parseSsPid` from `linux.ts`: regex `/pid=(\d+)/` — the first position
where `pid=` is followed by at least one digit; the capture is the maximal
digit run there. -/
def parseSsPid : List Char → Option Int
  | [] => none
  | c :: rest =>
    if isPrefixCL "pid=".data (c :: rest) then
      let ds := (rest.drop 3).takeWhile Char.isDigit
      if ds = [] then parseSsPid rest else some (digitsVal ds)
    else parseSsPid rest

/-- The literal part of the `parseSsName` regex `/users:\(\("([^"]+)"/`. -/
def SS_NAME_PAT : List Char := "users:((\"".data

/-- `parseSsName` from `linux.ts`: first position where the literal
`users:(("` is followed by at least one non-quote character and a closing
quote; the capture is the run of non-quote characters. -/
def parseSsName : List Char → Option String
  | [] => none
  | c :: rest =>
    if isPrefixCL SS_NAME_PAT (c :: rest) then
      let tail := (c :: rest).drop SS_NAME_PAT.length
      let nm := tail.takeWhile (fun d => d ≠ '"')
      if nm ≠ [] ∧ isPrefixCL ['"'] (tail.drop nm.length) then some (String.mk nm)
      else parseSsName rest
    else parseSsName rest

/-- One iteration of the `parseSs` loop body (`linux.ts`); the line is
already trimmed and nonempty.  Expected columns:
`State Recv-Q Send-Q Local Address:Port Peer Address:Port Process`. -/
def parseSsLine (protocol : Protocol) (source : String) (line : List Char) :
    Option Listener :=
  let parts := splitWs line
  if parts.length < 5 then none
  else
    let lcl := parts.getD 3 []
    let procCol := List.intercalate [' '] (parts.drop 5)
    match parseAddrPort lcl with
    | none => none
    | some (port, address) =>
      if port = 0 then none
      else
        match parseSsPid procCol with
        | none => none
        | some pid =>
          if pid = 0 then none
          else
            some { protocol := protocol, port := port, pid := pid,
                   localAddress := some (String.mk address),
                   processName := parseSsName procCol,
                   raw := some (String.mk line), source := some source }

/-- `parseSs` from `linux.ts`: split into lines, trim each, keep the
nonempty ones (`.filter(Boolean)`), parse each line best-effort. -/
def parseSs (stdout : String) (protocol : Protocol) (source : String) :
    List Listener :=
  (((splitLines stdout.data).map jsTrim).filter (fun l => !l.isEmpty)).filterMap
    (parseSsLine protocol source)

/-! ## `netstat` output parser (`WindowsFinder`, `src/core/finder/windows.ts`) -/

/-- The `address.replace(/^\[|\]$/g, '')` bracket strip in
`parseWindowsAddressPort`: removes one leading `[` and one trailing `]`. -/
def stripBrackets (a : List Char) : List Char :=
  let a1 := match a with
    | '[' :: rest => rest
    | _ => a
  match a1.reverse with
  | ']' :: rest => rest.reverse
  | _ => a1

/-- `parseWindowsAddressPort` from `windows.ts`: regex `^(.*):(\d+)$` (the
greedy `.*` puts the split at the last colon whose suffix is all digits),
then the IPv6 bracket strip on the address. -/
def parseWindowsAddressPort (lcl : List Char) : Option (Int × List Char) :=
  let rds := lcl.reverse.takeWhile Char.isDigit
  if rds = [] then none
  else
    match lcl.reverse.drop rds.length with
    | ':' :: pre => some (digitsVal rds.reverse, stripBrackets pre.reverse)
    | _ => none

/-- One iteration of the `parseNetstat` loop body (`windows.ts`).  `raw` is
the original line; the source trims a copy for the checks but stores `raw`.
TCP rows are `Proto Local Foreign State PID`; UDP rows are
`Proto Local Foreign PID` (no state column). -/
def parseNetstatLine (proto : Protocol) (raw : List Char) : Option Listener :=
  let line := jsTrim raw
  if line = [] then none
  else if isPrefixCL "proto".data (toLowerCL line) then none
  else if isPrefixCL "active".data (toLowerCL line) then none
  else
    let parts := splitWs line
    if parts.length < 4 then none
    else
      let p := toLowerCL (parts.getD 0 [])
      if ¬(p = "tcp".data ∨ p = "udp".data) then none
      else
        let hasState := p = "tcp".data
        let lcl := parts.getD 1 []
        let stateCol := parts.getD 3 []
        let pidStr := parts.getD (if hasState then 4 else 3) []
        if hasState ∧ stateCol ≠ [] ∧ toLowerCL stateCol ≠ "listening".data then
          none
        else
          match jsParseInt pidStr with
          | none => none
          | some pid =>
            match parseWindowsAddressPort lcl with
            | none => none
            | some (port, address) =>
              if port = 0 then none
              else
                some { protocol := proto, port := port, pid := pid,
                       localAddress := some (String.mk address),
                       raw := some (String.mk raw), source := some "netstat" }

/-- `parseNetstat` from `windows.ts`. -/
def parseNetstat (stdout : String) (proto : Protocol) : List Listener :=
  (splitLines stdout.data).filterMap (parseNetstatLine proto)

/-! ## External command timeouts (`src/utils/exec.ts` and its call sites)

`execFile(cmd, args, options)` arms a kill timer only when
`options.timeoutMs && options.timeoutMs > 0`; the options below record, per
call site of the discovery and kill strategies, exactly the `ExecOptions`
passed in the source. -/

/-- The `ExecOptions` fields relevant to the timeout policy
(`src/utils/exec.ts`). -/
structure ExecOptions where
  timeoutMs : Option Int := none
deriving DecidableEq, Repr

/-- Whether `execFile` arms its kill timer:
`if (options.timeoutMs && options.timeoutMs > 0)`. -/
def execTimerArmed (o : ExecOptions) : Bool :=
  match o.timeoutMs with
  | none => false
  | some t => t != 0 && decide (0 < t)

/-- `DarwinFinder.runLsof` (`src/core/finder/darwin.ts`):
`execFile('lsof', args)` — no options at all. -/
def darwinRunLsofOpts : ExecOptions := {}

/-- `LinuxFinder.trySsListAll` / `trySsFindByPort` (`linux.ts`):
`execFile('ss', [...])` — no options. -/
def linuxSsOpts : ExecOptions := {}

/-- `LinuxFinder.tryLsofListAll` / `tryLsofFindByPort` (`linux.ts`):
`execFile('lsof', [...])` — no options. -/
def linuxLsofOpts : ExecOptions := {}

/-- `PosixFallbackFinder.tryLsof` (`posixFallback.ts`):
`execFile('lsof', args, { timeoutMs: 2000 })`. -/
def posixFallbackLsofOpts : ExecOptions := { timeoutMs := some 2000 }

/-- `WindowsFinder.runNetstat` (`windows.ts`):
`execFile('netstat', args, { timeoutMs: 2000 })`. -/
def windowsNetstatOpts : ExecOptions := { timeoutMs := some 2000 }

/-- `tryTasklistInfo` (`windows.ts`):
`execFile('tasklist', [...], { timeoutMs: 3000 })`. -/
def tasklistOpts : ExecOptions := { timeoutMs := some 3000 }

/-- `runPowerShell` (`windows.ts` enrichment):
`execFile('powershell.exe' | 'powershell', args, { timeoutMs: 2000 })`. -/
def powershellEnrichOpts : ExecOptions := { timeoutMs := some 2000 }

/-- `listChildren` (`src/core/killer/posix.ts`):
`execFile('ps', [...], { timeoutMs: 1000 })`. -/
def psChildrenOpts : ExecOptions := { timeoutMs := some 1000 }

/-- `runTaskkill` (`src/core/killer/windows.ts`):
`execFile('taskkill', args, { timeoutMs: 5000 })`. -/
def taskkillOpts : ExecOptions := { timeoutMs := some 5000 }

/-- The error classes `execFile` can reject with: spawn failure with
`code === 'ENOENT'` (missing tool), `ExecTimeoutError`, or another spawn
failure. -/
inductive ExecErr where
  | enoent
  | timeout
  | otherSpawn
deriving DecidableEq, Repr

/-- `PosixFallbackFinder.tryLsof`'s `try`/`catch`: any rejection —
`isCommandNotFound(err)` or not — yields `null` (an empty contribution). -/
def posixFallbackTryLsof (r : Except ExecErr String) : Option String :=
  match r with
  | .ok s => some s
  | .error .enoent => none
  | .error _ => none

/-- `LinuxFinder.trySsListAll`'s `try`/`catch`: any rejection yields `null`
(fall back to `lsof`). -/
def linuxTrySsCatch (r : Except ExecErr (List Listener)) :
    Option (List Listener) :=
  match r with
  | .ok out => some out
  | .error .enoent => none
  | .error _ => none

/-! ## POSIX killer (`src/core/killer/posix.ts`)

The killer interacts with the OS through `process.kill` and timed liveness
polls.  That world is passed in explicitly: the outcome of each signal send
and, for each poll loop, the liveness observed at the `k`-th poll.  Time
advances in the 30 ms sleep steps of `waitForExit`, so a wait of
`timeoutMs` performs `⌈timeoutMs / 30⌉` polls (the loop runs while
`Date.now() - start < timeoutMs`).  The returned event trace records every
signal send attempt, every wait, and tree-mode descendant enumeration, so
"never sends the forceful signal" is a statement about the trace. -/

/-- `KillOptions` from `src/core/types.ts`. -/
structure KillOptions where
  force : Option Bool := none
  timeoutMs : Option Int := none
  tree : Option Bool := none
deriving DecidableEq, Repr

/-- `KillResult` from `src/core/types.ts`. -/
structure KillResult where
  pid : Int
  ok : Bool
  method : String
  message : Option String := none
  errorCode : Option String := none
deriving DecidableEq, Repr

/-- Outcome of one `process.kill(pid, sig)` call: success, `ESRCH` (process
gone), or another failure carrying `err.code` / `err.message`. -/
inductive SendOutcome where
  | ok
  | esrch
  | fail (code : Option String) (message : Option String)
deriving DecidableEq, Repr

/-- The world one `killSingle(pid, ...)` call observes:  the outcome of its
`SIGTERM` and `SIGKILL` sends, and the liveness (`process.kill(pid, 0)`:
`true` = alive or `EPERM`, `false` = `ESRCH`) seen at the `k`-th poll of the
grace wait resp. the confirmation wait. -/
structure ProcWorld where
  sendTerm : SendOutcome
  aliveAfterTerm : Nat → Bool
  sendKill : SendOutcome
  aliveAfterKill : Nat → Bool

/-- Observable actions of one `kill` call. -/
inductive KEvent where
  /-- A `process.kill(pid, name)` send attempt (real signals only; the
  zero-signal liveness probes dispatch nothing). -/
  | sig (pid : Int) (name : String)
  /-- The grace-window wait `waitForExit(pid, timeoutMs)` of step 2. -/
  | graceWait (pid : Int) (ms : Nat)
  /-- The fixed 200 ms confirmation wait of step 4. -/
  | confirmWait (pid : Int)
  /-- Tree mode's descendant enumeration via the external `ps` command. -/
  | enumCmd
  /-- A `taskkill` invocation (`forced` = with `/F`), Windows killer. -/
  | tk (forced : Bool)
deriving DecidableEq, Repr

/-- Number of polls `waitForExit` performs for a `timeoutMs`-long wait:
iterations run at elapsed times `0, 30, 60, …` while `elapsed < timeoutMs`. -/
def pollCount (timeoutMs : Nat) : Nat :=
  (timeoutMs + 29) / 30

/-- The poll loop of `waitForExit`: at most `n` more polls, currently at
poll index `k`; returns `true` as soon as a poll reports the process gone. -/
def waitPolls (alive : Nat → Bool) : Nat → Nat → Bool
  | 0, _ => false
  | n + 1, k => if alive k then waitPolls alive n (k + 1) else true

/-- `waitForExit(pid, timeoutMs)` from `posix.ts`, over the observed
liveness sequence. -/
def waitForExit (alive : Nat → Bool) (timeoutMs : Nat) : Bool :=
  waitPolls alive (pollCount timeoutMs) 0

/-- `PosixKiller.killSingle(pid, timeoutMs)` with its event trace:
1) send `SIGTERM`; 2) if a grace window is configured, wait for exit;
3) escalate to `SIGKILL`; 4) wait 200 ms to confirm. -/
def killSingleTr (w : ProcWorld) (pid : Int) (timeoutMs : Nat) :
    KillResult × List KEvent :=
  match w.sendTerm with
  | .esrch =>
    ({ pid := pid, ok := true, method := "already-exited" },
     [.sig pid "SIGTERM"])
  | .fail code msg =>
    ({ pid := pid, ok := false, method := "SIGTERM",
       message := some (msg.getD "SIGTERM failed"), errorCode := code },
     [.sig pid "SIGTERM"])
  | .ok =>
    if 0 < timeoutMs ∧ waitForExit w.aliveAfterTerm timeoutMs then
      ({ pid := pid, ok := true, method := "SIGTERM" },
       [.sig pid "SIGTERM", .graceWait pid timeoutMs])
    else
      let evs := .sig pid "SIGTERM"
        :: (if 0 < timeoutMs then [KEvent.graceWait pid timeoutMs] else [])
        ++ [KEvent.sig pid "SIGKILL"]
      match w.sendKill with
      | .esrch => ({ pid := pid, ok := true, method := "SIGTERM" }, evs)
      | .fail code msg =>
        ({ pid := pid, ok := false, method := "SIGKILL",
           message := some (msg.getD "SIGKILL failed"), errorCode := code },
         evs)
      | .ok =>
        if waitForExit w.aliveAfterKill 200 then
          ({ pid := pid, ok := true, method := "SIGKILL" },
           evs ++ [.confirmWait pid])
        else
          ({ pid := pid, ok := false, method := "SIGKILL",
             message := some "process still alive" },
           evs ++ [.confirmWait pid])

/-- The world a `PosixKiller.kill(pid, options)` call observes: the entry
`isAlive(pid)` probe, the result of `listDescendants(pid)` in tree mode
(`none` models a rejection of the enumeration, swallowed by the source's
`catch`), and a `ProcWorld` for each pid that gets `killSingle`d. -/
structure PosixKillWorld where
  alive : Bool
  treeEnum : Option (List Int) := some []
  procOf : Int → ProcWorld

/-- `Math.max(0, options.timeoutMs ?? 0)` from `PosixKiller.kill`. -/
def effectiveTimeoutMs (o : KillOptions) : Nat :=
  (max 0 (o.timeoutMs.getD 0)).toNat

/-- `PosixKiller.kill(pid, options)` with its event trace.  In tree mode the
descendants are killed first, in reverse discovery order, each with the same
grace window; the call's result is the root pid's `killSingle` result. -/
def posixKill (w : PosixKillWorld) (pid : Int) (o : KillOptions) :
    KillResult × List KEvent :=
  if !w.alive then
    ({ pid := pid, ok := true, method := "already-exited" }, [])
  else
    let t := effectiveTimeoutMs o
    let childEvs : List KEvent :=
      if o.tree.getD false then
        .enumCmd :: (match w.treeEnum with
          | none => []
          | some ds => (ds.reverse).flatMap
              (fun c => (killSingleTr (w.procOf c) c t).2))
      else []
    let root := killSingleTr (w.procOf pid) pid t
    (root.1, childEvs ++ root.2)

/-! ## Windows killer (`src/core/killer/windows.ts`)

`runTaskkill` classifies the `taskkill` invocation's combined
stdout/stderr/exit-code by pattern matching; the command's outcome (a
resolved `ExecResult` or a rejection) is passed in explicitly. -/

/-- Outcome of one `execFile('taskkill', ...)` call: a resolved result
(stdout, stderr, exit code) or a rejection carrying `err.message` /
`err.code`. -/
inductive TkOutcome where
  | res (stdout stderr : String) (code : Option Int)
  | err (message : Option String) (code : Option String)
deriving DecidableEq, Repr

/-- Matched by the JS regex `.` (anything but a line terminator). -/
def dotChar (c : Char) : Bool :=
  !(c = '\n' || c = '\r' || c = ' ' || c = ' ')

/-- After a match of `Access`, search for `denied` preceded by at least one
`.`-matchable character (the `.+` of `/Access.+denied/`). -/
def deniedSearch : List Char → Bool
  | [] => false
  | c :: rest =>
    dotChar c && (isPrefixCL "denied".data rest || deniedSearch rest)

/-- `/Access.+denied/i.test(out)` (on the lowercased text). -/
def accessDeniedMatch : List Char → Bool
  | [] => false
  | c :: rest =>
    (isPrefixCL "access".data (c :: rest) && deniedSearch ((c :: rest).drop 6))
      || accessDeniedMatch rest

/-- `/SUCCESS|成功/i.test(out)`. -/
def tkSuccessMatch (out : List Char) : Bool :=
  containsCL "success".data (toLowerCL out) || containsCL "成功".data out

/-- `/not found|找不到/i.test(out)`. -/
def tkNotFoundMatch (out : List Char) : Bool :=
  containsCL "not found".data (toLowerCL out) || containsCL "找不到".data out

/-- `/Access.+denied|拒绝访问/i.test(out)`. -/
def tkAccessDeniedMatch (out : List Char) : Bool :=
  accessDeniedMatch (toLowerCL out) || containsCL "拒绝访问".data out

/-- `out.replace(/[\u0000-\u001F]|[^\x00-\x7F]/g, '').trim() || 'failed'`:
strip control and non-ASCII characters, trim, fall back to `"failed"`. -/
def tkCleanMsg (out : List Char) : String :=
  let kept := jsTrim (out.filter (fun c => 0x20 ≤ c.toNat && c.toNat ≤ 0x7F))
  if kept = [] then "failed" else String.mk kept

/-- The combined output `` `${res.stdout}\n${res.stderr}`.trim() ``. -/
def tkCombinedOut (stdout stderr : String) : List Char :=
  jsTrim (stdout.data ++ '\n' :: stderr.data)

/-- `runTaskkill(args)` from `windows.ts`, given the invocation's outcome
and the pid that `parsePid(args)` extracts. -/
def runTaskkill (r : TkOutcome) (pid : Int) : KillResult :=
  match r with
  | .res stdout stderr code =>
    let out := tkCombinedOut stdout stderr
    if tkSuccessMatch out then
      { pid := pid, ok := true, method := "taskkill" }
    else if tkNotFoundMatch out then
      { pid := pid, ok := true, method := "already-exited" }
    else if tkAccessDeniedMatch out then
      { pid := pid, ok := false, method := "taskkill",
        message := some "access denied", errorCode := some "EPERM" }
    else if code = some 0 then
      { pid := pid, ok := true, method := "taskkill" }
    else
      { pid := pid, ok := false, method := "taskkill",
        message := some (tkCleanMsg out) }
  | .err msg code =>
    { pid := pid, ok := false, method := "taskkill",
      message := some (tkCleanMsg (msg.getD "failed").data),
      errorCode := code }

/-- The world one `WindowsKiller.kill(pid, options)` call observes: the
entry `isAlive(pid)` probe and the outcomes of the gentle and `/F`
`taskkill` invocations. -/
structure WinKillWorld where
  alive : Bool
  first : TkOutcome
  forced : TkOutcome

/-- `WindowsKiller.kill(pid, options)` with its event trace: gentle
tree-aware `taskkill`, auto-escalating to `/F`.  (The source's final
`if (!options.force && forced.errorCode === 'EPERM') return forced` is
followed by `return forced`, so both branches return `forced`.) -/
def winKill (w : WinKillWorld) (pid : Int) (_o : KillOptions) :
    KillResult × List KEvent :=
  if !w.alive then
    ({ pid := pid, ok := true, method := "already-exited" }, [])
  else
    let first := runTaskkill w.first pid
    if first.ok then
      ({ pid := pid, ok := true, method := "taskkill" }, [.tk false])
    else
      let forced := runTaskkill w.forced pid
      if forced.ok then
        ({ pid := pid, ok := true, method := "taskkill /F" },
         [.tk false, .tk true])
      else (forced, [.tk false, .tk true])

/-! ## Selection engine (`src/ui/tui.ts`)

The interactive loop of `selectListeners` is a state machine over one
keystroke event at a time.  `items` is the deduplicated, sorted list the
session operates on; `termRows` is `stdout.rows` (re-read by `visibleRows`,
held fixed here for one session).  Rendering writes to the terminal but
never changes `index`/`top`/`selected`, so it is omitted.  `resolve` is
modelled by the `result` field, set exactly once thanks to the `done`
flag. -/

/-- The keystroke events `onData` distinguishes.  `charJ`/`charK` are the
vim bindings; `other` is any unrecognized input (ignored). -/
inductive TuiEvent where
  | ctrlC
  | esc
  | enter
  | space
  | charJ
  | charK
  | up
  | down
  | pageUp
  | pageDown
  | home
  | endKey
  | other
deriving DecidableEq, Repr

/-- A resolution of `selectListeners`: `{cancelled, selected}`. -/
structure TuiSelectResult where
  cancelled : Bool
  selected : List Listener
deriving DecidableEq, Repr

/-- The session state of `selectListeners`: cursor `index`, viewport `top`,
the `Set<number>` of selected indices (a duplicate-free list; only
membership is consulted), the `done` flag, the resolved result, and the
`process.exitCode` side effect of Ctrl-C. -/
structure TuiState where
  index : Int
  top : Int
  selected : List Int
  done : Bool
  result : Option TuiSelectResult := none
  exitCode : Option Int := none
deriving DecidableEq, Repr

/-- The initial session state (`index: 0, top: 0, selected: new Set()`). -/
def tuiInit : TuiState :=
  { index := 0, top := 0, selected := [], done := false }

/-- `clamp(n, min, max)` from `tui.ts`: `Math.max(min, Math.min(max, n))`. -/
def clamp (n lo hi : Int) : Int :=
  max lo (min hi n)

/-- `visibleRows()`: `Math.max(1, (stdout.rows || 24) - 2)` (two rows are
reserved for the footer; `termRows` is the `stdout.rows || 24` value). -/
def visibleRows (termRows : Int) : Int :=
  max 1 (termRows - 2)

/-- `move(delta)` from `tui.ts`: clamp the cursor into `[0, items.length-1]`
then scroll the viewport if the cursor left it. -/
def tuiMove (n termRows : Int) (s : TuiState) (delta : Int) : TuiState :=
  let next := clamp (s.index + delta) 0 (n - 1)
  let rows := visibleRows termRows
  let top0 := if next < s.top then next else s.top
  let top1 := if next ≥ top0 + rows then next - rows + 1 else top0
  { s with index := next, top := top1 }

/-- `toggleSelected(idx)` from `tui.ts` (`Set.delete` / `Set.add`). -/
def toggleSelected (sel : List Int) (idx : Int) : List Int :=
  if idx ∈ sel then sel.erase idx else sel ++ [idx]

/-- `items.filter((_, idx) => state.selected.has(idx))` from the Enter
handler; `i` is the running element index. -/
def selectedItems (sel : List Int) : List Listener → Nat → List Listener
  | [], _ => []
  | a :: rest, i =>
    if (i : Int) ∈ sel then a :: selectedItems sel rest (i + 1)
    else selectedItems sel rest (i + 1)

/-- `done(r)` from `tui.ts`: resolve once and mark the session finished. -/
def tuiFinish (s : TuiState) (r : TuiSelectResult) : TuiState :=
  if s.done then s else { s with done := true, result := some r }

/-- One `onData` dispatch (plus the `SIGINT` handler's `process.exitCode =
130`, which the Ctrl-C branch also performs).  `items` are the session's
(deduplicated, sorted) rows. -/
def tuiStep (items : List Listener) (termRows : Int) (s : TuiState)
    (e : TuiEvent) : TuiState :=
  if s.done then s
  else
    match e with
    | .ctrlC =>
      tuiFinish { s with exitCode := some 130 } ⟨true, []⟩
    | .esc => tuiFinish s ⟨true, []⟩
    | .enter =>
      tuiFinish s ⟨false, selectedItems s.selected items 0⟩
    | .space => { s with selected := toggleSelected s.selected s.index }
    | .charJ => tuiMove items.length termRows s 1
    | .charK => tuiMove items.length termRows s (-1)
    | .up => tuiMove items.length termRows s (-1)
    | .down => tuiMove items.length termRows s 1
    | .pageUp => tuiMove items.length termRows s (-(visibleRows termRows))
    | .pageDown => tuiMove items.length termRows s (visibleRows termRows)
    | .home => { s with index := 0, top := 0 }
    | .endKey =>
      { s with index := (items.length : Int) - 1,
               top := max 0 ((items.length : Int) - visibleRows termRows) }
    | .other => s

/-- A whole session: fold the dispatcher over the keystroke sequence. -/
def tuiRun (items : List Listener) (termRows : Int) (evs : List TuiEvent) :
    TuiState :=
  evs.foldl (tuiStep items termRows) tuiInit

/-- The navigation keys of claim C5 (Up/Down/j/k/PageUp/PageDown/Home/End). -/
def navEvent (e : TuiEvent) : Prop :=
  e = .up ∨ e = .down ∨ e = .charJ ∨ e = .charK ∨ e = .pageUp ∨
    e = .pageDown ∨ e = .home ∨ e = .endKey

instance (e : TuiEvent) : Decidable (navEvent e) := by
  unfold navEvent; infer_instance

/-- The C5 bounds: cursor in `[0, itemCount-1]`, viewport top in
`[0, max(0, itemCount - viewportHeight)]`. -/
def navBounds (n rows : Int) (s : TuiState) : Prop :=
  0 ≤ s.index ∧ s.index ≤ n - 1 ∧ 0 ≤ s.top ∧ s.top ≤ max 0 (n - rows)

instance (n rows : Int) (s : TuiState) : Decidable (navBounds n rows s) := by
  unfold navBounds; infer_instance

/-! ### Dedup lemmas -/

/-- The set of keys recorded after `uniqByGo` processes `xs`. -/
def seenAfter (key : α → String) (seen : List String) : List α → List String
  | [] => seen
  | x :: xs =>
    if key x ∈ seen then seenAfter key seen xs
    else seenAfter key (key x :: seen) xs

theorem uniqByGo_append (key : α → String) (seen : List String) (xs ys : List α) :
    uniqByGo key seen (xs ++ ys)
      = uniqByGo key seen xs ++ uniqByGo key (seenAfter key seen xs) ys := by
  induction xs generalizing seen with
  | nil => simp [uniqByGo, seenAfter]
  | cons x xs ih =>
    by_cases h : key x ∈ seen <;> simp [uniqByGo, seenAfter, h, ih]

theorem mem_seenAfter_of_mem (key : α → String) (seen : List String) (xs : List α)
    (k : String) (hk : k ∈ seen) : k ∈ seenAfter key seen xs := by
  induction xs generalizing seen with
  | nil => simpa [seenAfter] using hk
  | cons x xs ih =>
    by_cases h : key x ∈ seen <;> simp [seenAfter, h]
    · exact ih seen hk
    · exact ih _ (by simp [hk])

theorem key_mem_seenAfter (key : α → String) (seen : List String) (xs : List α)
    (x : α) (hx : x ∈ xs) : key x ∈ seenAfter key seen xs := by
  induction xs generalizing seen with
  | nil => cases hx
  | cons y ys ih =>
    rcases List.mem_cons.mp hx with rfl | hx'
    · by_cases h : key x ∈ seen <;> simp [seenAfter, h]
      · exact mem_seenAfter_of_mem key seen ys _ h
      · exact mem_seenAfter_of_mem key _ ys _ (by simp)
    · by_cases h : key y ∈ seen <;> simp [seenAfter, h] <;> exact ih _ hx'

theorem uniqByGo_eq_nil_of_seen (key : α → String) (seen : List String) (ys : List α)
    (h : ∀ y ∈ ys, key y ∈ seen) : uniqByGo key seen ys = [] := by
  induction ys with
  | nil => simp [uniqByGo]
  | cons y ys ih =>
    have hy : key y ∈ seen := h y (by simp)
    simp [uniqByGo, hy]
    exact ih fun z hz => h z (by simp [hz])

theorem uniqByGo_keys_fresh (key : α → String) (seen : List String) (xs : List α) :
    ∀ x ∈ uniqByGo key seen xs, key x ∉ seen := by
  induction xs generalizing seen with
  | nil => simp [uniqByGo]
  | cons y ys ih =>
    by_cases h : key y ∈ seen <;> simp [uniqByGo, h]
    · exact ih seen
    · intro x hx
      have := ih (key y :: seen) x hx
      simp at this
      exact this.2

theorem uniqByGo_pairwise (key : α → String) (seen : List String) (xs : List α) :
    (uniqByGo key seen xs).Pairwise (fun a b => key a ≠ key b) := by
  induction xs generalizing seen with
  | nil => simp [uniqByGo]
  | cons y ys ih =>
    by_cases h : key y ∈ seen <;> simp [uniqByGo, h]
    · exact ih seen
    · refine ⟨?_, ih (key y :: seen)⟩
      intro x hx
      have := uniqByGo_keys_fresh key (key y :: seen) ys x hx
      simp at this
      exact fun e => this.1 e.symm

theorem uniqByGo_fixed (key : α → String) (seen : List String) (xs : List α)
    (hdis : ∀ x ∈ xs, key x ∉ seen)
    (hnd : xs.Pairwise (fun a b => key a ≠ key b)) :
    uniqByGo key seen xs = xs := by
  induction xs generalizing seen with
  | nil => simp [uniqByGo]
  | cons y ys ih =>
    have hy : key y ∉ seen := hdis y (by simp)
    simp [uniqByGo, hy]
    rcases List.pairwise_cons.mp hnd with ⟨hhd, htl⟩
    refine ih _ ?_ htl
    intro x hx
    simp
    exact ⟨fun e => hhd x hx e.symm, hdis x (by simp [hx])⟩

/-- Deduplicating a doubled batch equals deduplicating it once, and `dedupe`
is idempotent. -/
theorem dedupe_double (xs : List Listener) :
    dedupe (xs ++ xs) = dedupe xs ∧ dedupe (dedupe xs) = dedupe xs := by
  constructor
  · rw [dedupe, uniqBy, uniqByGo_append]
    rw [uniqByGo_eq_nil_of_seen listenerKey _ xs
      (fun y hy => key_mem_seenAfter listenerKey [] xs y hy)]
    simp [dedupe, uniqBy]
  · rw [dedupe, dedupe, uniqBy, uniqBy]
    exact uniqByGo_fixed listenerKey [] _
      (fun x hx => by simp)
      (uniqByGo_pairwise listenerKey [] xs)

/-- C2 — Protection monotonicity: for every Listener whose pid is 0 or 4 on
Windows, or 1 on a non-Windows platform, `protectionFor` returns
`protected: true`, regardless of the values of all other Listener fields. -/
theorem protectionFor_system_pids (p : Platform) (l : Listener)
    (h : (p = .win32 ∧ (l.pid = 0 ∨ l.pid = 4)) ∨ (p ≠ .win32 ∧ l.pid = 1)) :
    (protectionFor p l).«protected» = true := by
  rcases h with ⟨hp, hpid⟩ | ⟨hp, hpid⟩
  · subst hp
    rcases hpid with h0 | h4
    · simp [protectionFor, h0]
    · simp [protectionFor, h4]
  · have hle : l.pid ≤ 1 := le_of_eq hpid
    simp [protectionFor, hp, hle]

/-- C2 witness: a Windows pid-4 listener with arbitrary other fields and a
Linux pid-1 listener are both classified protected. -/
theorem protectionFor_system_pids_witness :
    (Platform.win32 = Platform.win32 ∧ ((4 : Int) = 0 ∨ (4 : Int) = 4) ∨
      Platform.win32 ≠ Platform.win32 ∧ (4 : Int) = 1) ∧
    (protectionFor .win32
      { protocol := .tcp, port := 80, pid := 4, processName := some "node",
        command := some "node server.js", user := some "me" }).«protected» = true ∧
    (protectionFor .linux { protocol := .udp, port := 5353, pid := 1 }).«protected» = true := by
  refine ⟨by decide, ?_, ?_⟩
  · exact protectionFor_system_pids .win32
      { protocol := .tcp, port := 80, pid := 4, processName := some "node",
        command := some "node server.js", user := some "me" }
      (by decide)
  · exact protectionFor_system_pids .linux
      { protocol := .udp, port := 5353, pid := 1 } (by decide)

/-! ### Kill state machine lemmas -/

theorem waitPolls_eq_false (alive : Nat → Bool) (h : ∀ k, alive k = true) :
    ∀ n k, waitPolls alive n k = false := by
  intro n
  induction n with
  | zero => intro k; simp [waitPolls]
  | succ n ih =>
    intro k
    simp [waitPolls, h k]
    exact ih (k + 1)

theorem waitForExit_never (alive : Nat → Bool) (h : ∀ k, alive k = true)
    (t : Nat) : waitForExit alive t = false :=
  waitPolls_eq_false alive h _ 0

theorem waitForExit_immediate (alive : Nat → Bool) (h : alive 0 = false)
    (t : Nat) (ht : 0 < t) : waitForExit alive t = true := by
  unfold waitForExit pollCount
  have h30 : (t + 29) / 30 = ((t + 29) / 30 - 1) + 1 := by omega
  rw [h30]
  simp [waitPolls, h]

/-- C1 — POSIX kill state machine termination: with a positive pid, a
configured grace window and the target alive at entry, (1) a target that
dies immediately after `SIGTERM` yields `{ok: true, method: "SIGTERM"}`
within the grace wait and no `SIGKILL` is ever sent; (2) a target that
ignores `SIGTERM` but dies from `SIGKILL` yields
`{ok: true, method: "SIGKILL"}`; (3) a target immune to both signals
yields `{ok: false}` with the "process still alive" message after the
confirmation wait. -/
theorem posix_kill_state_machine (w : PosixKillWorld) (pid : Int)
    (o : KillOptions) (t : Int)
    (hpid : 0 < pid) (htmo : o.timeoutMs = some t) (ht : 0 < t)
    (htree : o.tree = none ∨ o.tree = some false) (halive : w.alive = true) :
    ((w.procOf pid).sendTerm = .ok →
      (∀ k, (w.procOf pid).aliveAfterTerm k = false) →
      (posixKill w pid o).1 = { pid := pid, ok := true, method := "SIGTERM" } ∧
      ∀ e ∈ (posixKill w pid o).2, e ≠ .sig pid "SIGKILL") ∧
    ((w.procOf pid).sendTerm = .ok →
      (∀ k, (w.procOf pid).aliveAfterTerm k = true) →
      (w.procOf pid).sendKill = .ok →
      (∀ k, (w.procOf pid).aliveAfterKill k = false) →
      (posixKill w pid o).1 = { pid := pid, ok := true, method := "SIGKILL" }) ∧
    ((w.procOf pid).sendTerm = .ok →
      (∀ k, (w.procOf pid).aliveAfterTerm k = true) →
      (w.procOf pid).sendKill = .ok →
      (∀ k, (w.procOf pid).aliveAfterKill k = true) →
      (posixKill w pid o).1
        = { pid := pid, ok := false, method := "SIGKILL",
            message := some "process still alive" }) := by
  have htr : o.tree.getD false = false := by
    rcases htree with h | h <;> simp [h]
  have hteff : effectiveTimeoutMs o = t.toNat := by
    have : max 0 t = t := by omega
    simp [effectiveTimeoutMs, htmo, this]
  have htpos : 0 < effectiveTimeoutMs o := by rw [hteff]; omega
  refine ⟨?_, ?_, ?_⟩
  · intro hst hdead
    have hw : waitForExit (w.procOf pid).aliveAfterTerm (effectiveTimeoutMs o)
        = true := waitForExit_immediate _ (hdead 0) _ htpos
    constructor
    · simp [posixKill, halive, htr, killSingleTr, hst, hw, htpos]
    · simp [posixKill, halive, htr, killSingleTr, hst, hw, htpos]
  · intro hst hignore hsk hdead
    have hw1 : waitForExit (w.procOf pid).aliveAfterTerm (effectiveTimeoutMs o)
        = false := waitForExit_never _ hignore _
    have hw2 : waitForExit (w.procOf pid).aliveAfterKill 200 = true :=
      waitForExit_immediate _ (hdead 0) _ (by omega)
    simp [posixKill, halive, htr, killSingleTr, hst, hw1, hsk, hw2]
  · intro hst hignore hsk himm
    have hw1 : waitForExit (w.procOf pid).aliveAfterTerm (effectiveTimeoutMs o)
        = false := waitForExit_never _ hignore _
    have hw2 : waitForExit (w.procOf pid).aliveAfterKill 200 = false :=
      waitForExit_never _ himm _
    simp [posixKill, halive, htr, killSingleTr, hst, hw1, hsk, hw2]

/-- The concrete worlds of the C1 witness: pid 42, grace 1200 ms; target
dying at `SIGTERM` / dying only at `SIGKILL` / immune to both. -/
def c1WorldTerm : PosixKillWorld :=
  { alive := true,
    procOf := fun _ =>
      { sendTerm := .ok, aliveAfterTerm := fun _ => false,
        sendKill := .ok, aliveAfterKill := fun _ => false } }

def c1WorldKill : PosixKillWorld :=
  { alive := true,
    procOf := fun _ =>
      { sendTerm := .ok, aliveAfterTerm := fun _ => true,
        sendKill := .ok, aliveAfterKill := fun _ => false } }

def c1WorldImmune : PosixKillWorld :=
  { alive := true,
    procOf := fun _ =>
      { sendTerm := .ok, aliveAfterTerm := fun _ => true,
        sendKill := .ok, aliveAfterKill := fun _ => true } }

def c1Opts : KillOptions := { timeoutMs := some 1200 }

/-- C1 witness: the three scenarios at pid 42 with a 1200 ms grace window. -/
theorem posix_kill_state_machine_witness :
    ((0 : Int) < 42 ∧ c1Opts.timeoutMs = some 1200 ∧ (0 : Int) < 1200 ∧
      c1WorldTerm.alive = true) ∧
    ((posixKill c1WorldTerm 42 c1Opts).1
        = { pid := 42, ok := true, method := "SIGTERM" } ∧
      ∀ e ∈ (posixKill c1WorldTerm 42 c1Opts).2, e ≠ .sig 42 "SIGKILL") ∧
    (posixKill c1WorldKill 42 c1Opts).1
        = { pid := 42, ok := true, method := "SIGKILL" } ∧
    (posixKill c1WorldImmune 42 c1Opts).1
        = { pid := 42, ok := false, method := "SIGKILL",
            message := some "process still alive" } := by
  refine ⟨⟨by decide, rfl, by decide, rfl⟩, ?_, ?_, ?_⟩
  · exact (posix_kill_state_machine c1WorldTerm 42 c1Opts 1200 (by decide) rfl
      (by decide) (Or.inl rfl) rfl).1 rfl (fun _ => rfl)
  · exact (posix_kill_state_machine c1WorldKill 42 c1Opts 1200 (by decide) rfl
      (by decide) (Or.inl rfl) rfl).2.1 rfl (fun _ => rfl) rfl (fun _ => rfl)
  · exact (posix_kill_state_machine c1WorldImmune 42 c1Opts 1200 (by decide) rfl
      (by decide) (Or.inl rfl) rfl).2.2 rfl (fun _ => rfl) rfl (fun _ => rfl)

/-- C7 — Already-exited short-circuit: when the entry `isAlive` probe says
the pid is gone, both killers return `{ok: true, method: "already-exited"}`
with an empty event trace (no signal sent, no external termination
command run). -/
theorem kill_already_exited_short_circuit (pw : PosixKillWorld)
    (ww : WinKillWorld) (pidP pidW : Int) (oP oW : KillOptions)
    (hp : pw.alive = false) (hw : ww.alive = false) :
    posixKill pw pidP oP
        = ({ pid := pidP, ok := true, method := "already-exited" }, []) ∧
    winKill ww pidW oW
        = ({ pid := pidW, ok := true, method := "already-exited" }, []) := by
  constructor
  · simp [posixKill, hp]
  · simp [winKill, hw]

/-- C7 witness: a dead pid 7 (POSIX) and a dead pid 8 (Windows), worlds that
would report success if any signal/command were dispatched. -/
theorem kill_already_exited_short_circuit_witness :
    ({ alive := false, procOf := fun _ =>
        { sendTerm := .ok, aliveAfterTerm := fun _ => true,
          sendKill := .ok, aliveAfterKill := fun _ => true } } :
        PosixKillWorld).alive = false ∧
    posixKill
      { alive := false, procOf := fun _ =>
          { sendTerm := .ok, aliveAfterTerm := fun _ => true,
            sendKill := .ok, aliveAfterKill := fun _ => true } } 7 {}
        = ({ pid := 7, ok := true, method := "already-exited" }, []) ∧
    winKill
      { alive := false, first := .res "SUCCESS" "" (some 0),
        forced := .res "SUCCESS" "" (some 0) } 8 { force := some true }
        = ({ pid := 8, ok := true, method := "already-exited" }, []) := by
  refine ⟨rfl, ?_, ?_⟩
  · exact (kill_already_exited_short_circuit _
      { alive := false, first := .res "SUCCESS" "" (some 0),
        forced := .res "SUCCESS" "" (some 0) } 7 8 {} { force := some true }
      rfl rfl).1
  · exact (kill_already_exited_short_circuit
      { alive := false, procOf := fun _ =>
          { sendTerm := .ok, aliveAfterTerm := fun _ => true,
            sendKill := .ok, aliveAfterKill := fun _ => true } }
      _ 7 8 {} { force := some true } rfl rfl).2

theorem killSingleTr_zero_no_graceWait (w : ProcWorld) (pid : Int) :
    ∀ e ∈ (killSingleTr w pid 0).2, ∀ p ms, e ≠ KEvent.graceWait p ms := by
  rcases hst : w.sendTerm with _ | _ | ⟨code, msg⟩ <;>
    rcases hsk : w.sendKill with _ | _ | ⟨code2, msg2⟩ <;>
    by_cases hw : waitForExit w.aliveAfterKill 200 = true <;>
    simp_all [killSingleTr]

theorem killSingleTr_zero_escalates (w : ProcWorld) (pid : Int)
    (hst : w.sendTerm = .ok) :
    ∃ rest, (killSingleTr w pid 0).2
      = KEvent.sig pid "SIGTERM" :: KEvent.sig pid "SIGKILL" :: rest := by
  rcases hsk : w.sendKill with _ | _ | ⟨code, msg⟩ <;>
    by_cases hw : waitForExit w.aliveAfterKill 200 = true <;>
    simp_all [killSingleTr]

/-- C10 — Implicit zero-grace escalation: with the target alive and
`timeoutMs` omitted, zero or negative, `PosixKiller.kill` clamps the grace
window to 0 and performs no grace-period polling at all; after a successful
`SIGTERM` send the `SIGKILL` send follows immediately (no wait in between),
and a successful kill reports method `"SIGKILL"` — or `"SIGTERM"` exactly
when the process vanished (`ESRCH`) between the two sends. -/
theorem posix_zero_grace_escalation (w : PosixKillWorld) (pid : Int)
    (o : KillOptions) (halive : w.alive = true)
    (ht : o.timeoutMs = none ∨ ∃ t, o.timeoutMs = some t ∧ t ≤ 0) :
    effectiveTimeoutMs o = 0 ∧
    (∀ e ∈ (posixKill w pid o).2, ∀ p ms, e ≠ KEvent.graceWait p ms) ∧
    ((w.procOf pid).sendTerm = .ok →
      ∃ rest, (killSingleTr (w.procOf pid) pid (effectiveTimeoutMs o)).2
        = KEvent.sig pid "SIGTERM" :: KEvent.sig pid "SIGKILL" :: rest) ∧
    ((w.procOf pid).sendTerm = .ok → (posixKill w pid o).1.ok = true →
      ((posixKill w pid o).1.method = "SIGKILL" ∧
        (w.procOf pid).sendKill = .ok) ∨
      ((posixKill w pid o).1.method = "SIGTERM" ∧
        (w.procOf pid).sendKill = .esrch)) := by
  have ht0 : effectiveTimeoutMs o = 0 := by
    rcases ht with h | ⟨t, h, hle⟩ <;> simp [effectiveTimeoutMs, h] <;> omega
  refine ⟨ht0, ?_, ?_, ?_⟩
  · intro e he p ms
    simp only [posixKill, halive, Bool.not_true, ht0] at he
    simp at he
    rcases he with he | he
    · by_cases htr : o.tree.getD false = true
      · rcases hte : w.treeEnum with _ | ds <;> simp [htr, hte] at he
        · simp [he]
        · rcases he with he | ⟨c, _, he⟩
          · simp [he]
          · exact killSingleTr_zero_no_graceWait _ c e he p ms
      · simp at htr
        simp [htr] at he
    · exact killSingleTr_zero_no_graceWait _ pid e he p ms
  · intro hst
    rw [ht0]
    exact killSingleTr_zero_escalates _ pid hst
  · intro hst hok
    have hres : (posixKill w pid o).1 = (killSingleTr (w.procOf pid) pid 0).1 := by
      simp [posixKill, halive, ht0]
    rw [hres] at hok ⊢
    rcases hsk : (w.procOf pid).sendKill with _ | _ | ⟨code, msg⟩ <;>
      by_cases hw : waitForExit (w.procOf pid).aliveAfterKill 200 = true <;>
      simp_all [killSingleTr]

/-- The C10 witness world: alive target, `SIGTERM` and `SIGKILL` sends
succeed, the target dies by the confirmation poll. -/
def c10World : PosixKillWorld :=
  { alive := true,
    procOf := fun _ =>
      { sendTerm := .ok, aliveAfterTerm := fun _ => true,
        sendKill := .ok, aliveAfterKill := fun _ => false } }

def c10Opts : KillOptions := { timeoutMs := some (-250), tree := some true }

/-- C10 witness: pid 9 with a negative grace window (and tree mode on). -/
theorem posix_zero_grace_escalation_witness :
    (c10World.alive = true ∧
      (c10Opts.timeoutMs = none ∨
        ∃ t, c10Opts.timeoutMs = some t ∧ t ≤ 0)) ∧
    effectiveTimeoutMs c10Opts = 0 ∧
    (∀ e ∈ (posixKill c10World 9 c10Opts).2, ∀ p ms,
      e ≠ KEvent.graceWait p ms) ∧
    (∃ rest, (killSingleTr (c10World.procOf 9) 9
        (effectiveTimeoutMs c10Opts)).2
      = KEvent.sig 9 "SIGTERM" :: KEvent.sig 9 "SIGKILL" :: rest) ∧
    (((posixKill c10World 9 c10Opts).1.method = "SIGKILL" ∧
        (c10World.procOf 9).sendKill = .ok) ∨
      ((posixKill c10World 9 c10Opts).1.method = "SIGTERM" ∧
        (c10World.procOf 9).sendKill = .esrch)) := by
  have h := posix_zero_grace_escalation c10World 9 c10Opts rfl
    (Or.inr ⟨-250, rfl, by decide⟩)
  exact ⟨⟨rfl, Or.inr ⟨-250, rfl, by decide⟩⟩, h.1, h.2.1, h.2.2.1 rfl,
    h.2.2.2 rfl (by decide)⟩

/-- C9 — Windows locale-tolerant success parsing: a `taskkill` invocation
whose combined stdout+stderr contains the non-English success token `成功`
and no ASCII `SUCCESS` substring (in any letter case) is still classified
as a successful outcome. -/
theorem taskkill_locale_success (stdout stderr : String) (code : Option Int)
    (pid : Int)
    (hzh : containsCL "成功".data (tkCombinedOut stdout stderr) = true)
    (hen : containsCL "success".data (toLowerCL (tkCombinedOut stdout stderr))
      = false) :
    (runTaskkill (.res stdout stderr code) pid).ok = true := by
  simp [runTaskkill, tkSuccessMatch, hzh]

/-- C9 witness: a Chinese-locale taskkill success line with no ASCII
"SUCCESS". -/
theorem taskkill_locale_success_witness :
    containsCL "成功".data (tkCombinedOut "成功: 已终止 PID 123 的进程。" "")
        = true ∧
    containsCL "success".data
        (toLowerCL (tkCombinedOut "成功: 已终止 PID 123 的进程。" "")) = false ∧
    (runTaskkill (.res "成功: 已终止 PID 123 的进程。" "" (some 0)) 123).ok
        = true := by
  refine ⟨by decide, by decide, ?_⟩
  exact taskkill_locale_success "成功: 已终止 PID 123 的进程。" "" (some 0) 123
    (by decide) (by decide)

/-- C8 (counterexample) — not every discovery/kill command invocation
passes a bounded timeout: `DarwinFinder.runLsof` and the Linux `ss`/`lsof`
discovery invocations pass no `timeoutMs` at all, so `execFile` arms no
kill timer for them. -/
theorem exec_timeout_unbounded_sites :
    darwinRunLsofOpts.timeoutMs = none ∧
    execTimerArmed darwinRunLsofOpts = false ∧
    linuxSsOpts.timeoutMs = none ∧
    execTimerArmed linuxSsOpts = false ∧
    linuxLsofOpts.timeoutMs = none ∧
    execTimerArmed linuxLsofOpts = false := by
  decide

/-- C8 (amended) — the posix-fallback `lsof`, Windows `netstat`,
`tasklist`, PowerShell-enrichment, `ps` child-listing and `taskkill`
invocations pass bounded timeouts between 1 and 5 seconds (arming
`execFile`'s kill timer), and for the fallback/`ss` strategies a timed-out
command contributes an empty result exactly as a missing tool does; but the
Darwin `lsof` and Linux `ss`/`lsof` discovery invocations pass no timeout
at all. -/
theorem exec_timeout_policy :
    (posixFallbackLsofOpts.timeoutMs = some 2000 ∧
      execTimerArmed posixFallbackLsofOpts = true) ∧
    (windowsNetstatOpts.timeoutMs = some 2000 ∧
      execTimerArmed windowsNetstatOpts = true) ∧
    (tasklistOpts.timeoutMs = some 3000 ∧
      execTimerArmed tasklistOpts = true) ∧
    (powershellEnrichOpts.timeoutMs = some 2000 ∧
      execTimerArmed powershellEnrichOpts = true) ∧
    (psChildrenOpts.timeoutMs = some 1000 ∧
      execTimerArmed psChildrenOpts = true) ∧
    (taskkillOpts.timeoutMs = some 5000 ∧
      execTimerArmed taskkillOpts = true) ∧
    (posixFallbackTryLsof (.error .timeout)
        = posixFallbackTryLsof (.error .enoent) ∧
      posixFallbackTryLsof (.error .timeout) = none) ∧
    (linuxTrySsCatch (.error .timeout) = linuxTrySsCatch (.error .enoent) ∧
      linuxTrySsCatch (.error .timeout) = none) ∧
    darwinRunLsofOpts.timeoutMs = none ∧
    linuxSsOpts.timeoutMs = none ∧
    linuxLsofOpts.timeoutMs = none := by
  decide

/-! ### Selection-engine lemmas -/

theorem visibleRows_pos (termRows : Int) : 1 ≤ visibleRows termRows :=
  le_max_left 1 _

theorem tuiMove_bounds (n termRows : Int) (s : TuiState) (delta : Int)
    (hn : 1 ≤ n) (hb : navBounds n (visibleRows termRows) s) :
    navBounds n (visibleRows termRows) (tuiMove n termRows s delta) := by
  obtain ⟨h1, h2, h3, h4⟩ := hb
  have hr := visibleRows_pos termRows
  unfold navBounds tuiMove clamp at *
  simp only
  split_ifs <;> simp_all <;> omega

theorem tuiStep_bounds (items : List Listener) (termRows : Int) (s : TuiState)
    (e : TuiEvent) (hn : items ≠ [])
    (hb : navBounds items.length (visibleRows termRows) s) :
    navBounds items.length (visibleRows termRows)
      (tuiStep items termRows s e) := by
  have hn1 : 1 ≤ (items.length : Int) := by
    have := List.length_pos.mpr hn
    omega
  have hr := visibleRows_pos termRows
  by_cases hd : s.done
  · simpa [tuiStep, hd] using hb
  · cases e
    · obtain ⟨h1, h2, h3, h4⟩ := hb
      simp [tuiStep, hd, tuiFinish, navBounds]
      omega
    · obtain ⟨h1, h2, h3, h4⟩ := hb
      simp [tuiStep, hd, tuiFinish, navBounds]
      omega
    · obtain ⟨h1, h2, h3, h4⟩ := hb
      simp [tuiStep, hd, tuiFinish, navBounds]
      omega
    · obtain ⟨h1, h2, h3, h4⟩ := hb
      simp [tuiStep, hd, navBounds]
      omega
    · simpa [tuiStep, hd] using tuiMove_bounds _ termRows s 1 hn1 hb
    · simpa [tuiStep, hd] using tuiMove_bounds _ termRows s (-1) hn1 hb
    · simpa [tuiStep, hd] using tuiMove_bounds _ termRows s (-1) hn1 hb
    · simpa [tuiStep, hd] using tuiMove_bounds _ termRows s 1 hn1 hb
    · simpa [tuiStep, hd] using
        tuiMove_bounds _ termRows s (-(visibleRows termRows)) hn1 hb
    · simpa [tuiStep, hd] using
        tuiMove_bounds _ termRows s (visibleRows termRows) hn1 hb
    · simp [tuiStep, hd, navBounds]
      omega
    · simp [tuiStep, hd, navBounds]
      omega
    · simpa [tuiStep, hd] using hb

theorem tuiFoldl_bounds (items : List Listener) (termRows : Int)
    (hn : items ≠ []) :
    ∀ (evs : List TuiEvent) (s : TuiState),
      navBounds items.length (visibleRows termRows) s →
      navBounds items.length (visibleRows termRows)
        (evs.foldl (tuiStep items termRows) s) := by
  intro evs
  induction evs with
  | nil => intro s hb; simpa using hb
  | cons e evs ih =>
    intro s hb
    simpa using ih _ (tuiStep_bounds items termRows s e hn hb)

theorem tuiInit_bounds (items : List Listener) (termRows : Int)
    (hn : items ≠ []) :
    navBounds items.length (visibleRows termRows) tuiInit := by
  have hn1 : 1 ≤ (items.length : Int) := by
    have := List.length_pos.mpr hn
    omega
  have hr := visibleRows_pos termRows
  simp [tuiInit, navBounds]
  omega

theorem tuiRun_bounds (items : List Listener) (termRows : Int)
    (evs : List TuiEvent) (hn : items ≠ []) :
    navBounds items.length (visibleRows termRows)
      (tuiRun items termRows evs) :=
  tuiFoldl_bounds items termRows hn evs tuiInit
    (tuiInit_bounds items termRows hn)

/-- C5 — Selection Engine navigation bounds: for every non-empty item list
and every finite sequence of Up/Down/j/k/PageUp/PageDown/Home/End events,
after processing the events the cursor index is in `[0, itemCount-1]` and
the viewport top is in `[0, max(0, itemCount - viewportHeight)]` (this holds
after every prefix of the sequence, each prefix being such a sequence). -/
theorem tui_navigation_bounds (items : List Listener) (termRows : Int)
    (evs : List TuiEvent) (hne : items ≠ [])
    (hnav : ∀ e ∈ evs, navEvent e) :
    navBounds items.length (visibleRows termRows)
      (tuiRun items termRows evs) :=
  tuiRun_bounds items termRows evs hne

/-- C5 witness: two listeners, a 10-row terminal, a concrete navigation
sequence. -/
theorem tui_navigation_bounds_witness :
    ([({ protocol := .tcp, port := 3000, pid := 41 } : Listener),
      { protocol := .udp, port := 5353, pid := 42 }] ≠ []) ∧
    (∀ e ∈ [TuiEvent.down, .endKey, .pageUp, .charJ, .home, .charK, .up,
        .pageDown], navEvent e) ∧
    navBounds 2 (visibleRows 10)
      (tuiRun [{ protocol := .tcp, port := 3000, pid := 41 },
               { protocol := .udp, port := 5353, pid := 42 }] 10
        [TuiEvent.down, .endKey, .pageUp, .charJ, .home, .charK, .up,
         .pageDown]) := by
  refine ⟨by decide, by decide, ?_⟩
  exact tui_navigation_bounds
    [{ protocol := .tcp, port := 3000, pid := 41 },
     { protocol := .udp, port := 5353, pid := 42 }] 10
    [TuiEvent.down, .endKey, .pageUp, .charJ, .home, .charK, .up, .pageDown]
    (by decide) (by decide)

theorem tuiStep_nav_session (items : List Listener) (termRows : Int)
    (s : TuiState) (e : TuiEvent) (he : navEvent e) :
    (tuiStep items termRows s e).done = s.done ∧
    (tuiStep items termRows s e).selected = s.selected ∧
    (tuiStep items termRows s e).result = s.result := by
  by_cases hd : s.done
  · simp [tuiStep, hd]
  · rcases he with rfl | rfl | rfl | rfl | rfl | rfl | rfl | rfl <;>
      simp [tuiStep, hd, tuiMove]

theorem tuiFoldl_nav_session (items : List Listener) (termRows : Int) :
    ∀ (evs : List TuiEvent) (s : TuiState), (∀ e ∈ evs, navEvent e) →
      ((evs.foldl (tuiStep items termRows) s).done = s.done ∧
       (evs.foldl (tuiStep items termRows) s).selected = s.selected ∧
       (evs.foldl (tuiStep items termRows) s).result = s.result) := by
  intro evs
  induction evs with
  | nil => intro s _; simp
  | cons e evs ih =>
    intro s hev
    have h1 := tuiStep_nav_session items termRows s e (hev e (by simp))
    have h2 := ih (tuiStep items termRows s e)
      (fun e' he' => hev e' (by simp [he']))
    refine ⟨?_, ?_, ?_⟩ <;> simp only [List.foldl_cons]
    · rw [h2.1, h1.1]
    · rw [h2.2.1, h1.2.1]
    · rw [h2.2.2, h1.2.2]

theorem selectedItems_nil_of_lt (ix : Int) (l : List Listener) :
    ∀ k : Nat, ix < k → selectedItems [ix] l k = [] := by
  induction l with
  | nil => intro k _; simp [selectedItems]
  | cons a rest ih =>
    intro k hk
    have hne : ¬((k : Int) = ix) := by omega
    simp [selectedItems, hne]
    exact ih (k + 1) (by omega)

theorem selectedItems_single (l : List Listener) :
    ∀ (j k : Nat) (hj : j < l.length),
      selectedItems [((k : Int) + j)] l k = [l.get ⟨j, hj⟩] := by
  induction l with
  | nil => intro j k hj; simp at hj
  | cons a rest ih =>
    intro j k hj
    cases j with
    | zero =>
      simp [selectedItems]
      exact selectedItems_nil_of_lt _ rest (k + 1) (by push_cast; omega)
    | succ j' =>
      have hne : ¬((k : Int) = (k : Int) + ((j' + 1 : Nat) : Int)) := by
        push_cast
        omega
      have hj' : j' < rest.length := by
        simp only [List.length_cons] at hj
        omega
      have hne2 : ¬((j' : Int) + 1 = 0) := by omega
      simp [selectedItems, hne, hne2]
      have harith : ((k : Int) + ((j' : Int) + 1))
          = (((k + 1 : Nat) : Int) + (j' : Nat)) := by
        push_cast
        ring
      rw [harith, ih j' (k + 1) hj']
      simp

/-- C6 — Selection Engine resolution: (1) after any navigation-only prefix,
pressing Space (at the cursor index the prefix produced) and then Enter
resolves uncancelled with exactly the item at that index; (2) after any
event sequence that has not yet resolved the session, Esc or Ctrl-C
resolves with `cancelled: true` and an empty selected list, even if items
were previously toggled. -/
theorem tui_selection_resolution (items : List Listener) (termRows : Int) :
    (∀ navs : List TuiEvent, (∀ e ∈ navs, navEvent e) → items ≠ [] →
      ∃ a, items[(tuiRun items termRows navs).index.toNat]? = some a ∧
        (tuiRun items termRows (navs ++ [.space, .enter])).result
          = some ⟨false, [a]⟩) ∧
    (∀ (evs : List TuiEvent) (e : TuiEvent),
      (e = TuiEvent.esc ∨ e = TuiEvent.ctrlC) →
      (tuiRun items termRows evs).done = false →
      (tuiRun items termRows (evs ++ [e])).result = some ⟨true, []⟩) := by
  constructor
  · intro navs hnav hne
    have hsess := tuiFoldl_nav_session items termRows navs tuiInit hnav
    have hb := tuiRun_bounds items termRows navs hne
    have hlen : 1 ≤ (items.length : Int) := by
      have := List.length_pos.mpr hne
      omega
    obtain ⟨hi0, hi1, _, _⟩ := hb
    set s := tuiRun items termRows navs with hs
    have hidx : s.index.toNat < items.length := by omega
    have hdone : s.done = false := by
      rw [hs, tuiRun] at *
      simpa [tuiInit] using hsess.1
    have hsel : s.selected = [] := by
      rw [hs, tuiRun] at *
      simpa [tuiInit] using hsess.2.1
    refine ⟨items.get ⟨s.index.toNat, hidx⟩, by simp [List.getElem?_eq_getElem, hidx], ?_⟩
    have happ : tuiRun items termRows (navs ++ [.space, .enter])
        = tuiStep items termRows (tuiStep items termRows s .space) .enter := by
      rw [tuiRun, List.foldl_append]
      simp [List.foldl]
      rw [hs, tuiRun]
    rw [happ]
    have hspace : tuiStep items termRows s .space
        = { s with selected := [s.index] } := by
      simp [tuiStep, hdone, hsel, toggleSelected]
    rw [hspace]
    have hcast : s.index = ((0 : Nat) : Int) + s.index.toNat := by
      push_cast
      omega
    simp [tuiStep, hdone, tuiFinish]
    conv_lhs => rw [hcast]
    rw [selectedItems_single items s.index.toNat 0 hidx]
    simp
  · intro evs e he hdone
    have happ : tuiRun items termRows (evs ++ [e])
        = tuiStep items termRows (tuiRun items termRows evs) e := by
      rw [tuiRun, List.foldl_append]
      simp [List.foldl]
      rw [tuiRun]
    rw [happ]
    rcases he with rfl | rfl <;> simp [tuiStep, hdone, tuiFinish]

/-- C6 witness: with items `[l1, l2]`, navigating Down then Space+Enter
selects exactly `l2`; and Space (a toggle) followed by Esc resp. Ctrl-C
cancels with an empty selection. -/
theorem tui_selection_resolution_witness :
    (∀ e ∈ [TuiEvent.down], navEvent e) ∧
    (∃ a, [({ protocol := .tcp, port := 3000, pid := 41 } : Listener),
        { protocol := .udp, port := 5353, pid := 42 }][(tuiRun
          [{ protocol := .tcp, port := 3000, pid := 41 },
           { protocol := .udp, port := 5353, pid := 42 }] 24
          [TuiEvent.down]).index.toNat]? = some a ∧
      (tuiRun [{ protocol := .tcp, port := 3000, pid := 41 },
               { protocol := .udp, port := 5353, pid := 42 }] 24
        ([TuiEvent.down] ++ [.space, .enter])).result = some ⟨false, [a]⟩) ∧
    (tuiRun [({ protocol := .tcp, port := 3000, pid := 41 } : Listener),
             { protocol := .udp, port := 5353, pid := 42 }] 24
      ([TuiEvent.space] ++ [.esc])).result = some ⟨true, []⟩ ∧
    (tuiRun [({ protocol := .tcp, port := 3000, pid := 41 } : Listener),
             { protocol := .udp, port := 5353, pid := 42 }] 24
      ([TuiEvent.space] ++ [.ctrlC])).result = some ⟨true, []⟩ := by
  refine ⟨by decide, ?_, ?_, ?_⟩
  · exact (tui_selection_resolution
      [{ protocol := .tcp, port := 3000, pid := 41 },
       { protocol := .udp, port := 5353, pid := 42 }] 24).1
      [TuiEvent.down] (by decide) (by decide)
  · exact (tui_selection_resolution
      [{ protocol := .tcp, port := 3000, pid := 41 },
       { protocol := .udp, port := 5353, pid := 42 }] 24).2
      [TuiEvent.space] .esc (Or.inl rfl) (by decide)
  · exact (tui_selection_resolution
      [{ protocol := .tcp, port := 3000, pid := 41 },
       { protocol := .udp, port := 5353, pid := 42 }] 24).2
      [TuiEvent.space] .ctrlC (Or.inr rfl) (by decide)

/-! ### String-primitive lemmas for the parser claims -/

theorem splitLinesGo_no_newline (s : List Char)
    (h : ∀ c ∈ s, c ≠ '\n' ∧ c ≠ '\r') :
    ∀ acc, splitLinesGo s acc = [acc.reverse ++ s] := by
  induction s with
  | nil => intro acc; simp [splitLinesGo]
  | cons c rest ih =>
    intro acc
    have hc := h c (by simp)
    rw [splitLinesGo]
    simp only [hc.1, hc.2, if_false]
    rw [ih (fun d hd => h d (by simp [hd])) (c :: acc)]
    simp

theorem splitLines_single (s : List Char)
    (h : ∀ c ∈ s, c ≠ '\n' ∧ c ≠ '\r') :
    splitLines s = [s] := by
  simpa using splitLinesGo_no_newline s h []

theorem dropWhile_ws_eq_self (s : List Char)
    (h : ∀ c, s.head? = some c → isJsWs c = false) :
    s.dropWhile isJsWs = s := by
  cases s with
  | nil => rfl
  | cons c rest => simp [List.dropWhile_cons, h c rfl]

theorem jsTrim_eq_self (s : List Char)
    (h1 : ∀ c, s.head? = some c → isJsWs c = false)
    (h2 : ∀ c, s.reverse.head? = some c → isJsWs c = false) :
    jsTrim s = s := by
  unfold jsTrim
  rw [dropWhile_ws_eq_self s h1, dropWhile_ws_eq_self s.reverse h2,
    List.reverse_reverse]

theorem splitWsGo_token (t : List Char) (ht : ∀ c ∈ t, isJsWs c = false) :
    ∀ (r acc : List Char), splitWsGo (t ++ r) acc
      = splitWsGo r (t.reverse ++ acc) := by
  induction t with
  | nil => intro r acc; simp
  | cons c t' ih =>
    intro r acc
    have hc : isJsWs c = false := ht c (by simp)
    simp only [List.cons_append, splitWsGo, hc, Bool.false_eq_true, if_false,
      List.append_eq]
    rw [ih (fun d hd => ht d (by simp [hd])) r (c :: acc)]
    simp

theorem splitWsSkip_ws (w : List Char) (hw : ∀ c ∈ w, isJsWs c = true) :
    ∀ r, splitWsSkip (w ++ r) = splitWsSkip r := by
  induction w with
  | nil => intro r; simp
  | cons c w' ih =>
    intro r
    have hc := hw c (by simp)
    simp only [List.cons_append, splitWsSkip, hc, if_true, List.append_eq]
    exact ih (fun d hd => hw d (by simp [hd])) r

theorem splitWsGo_sep (w r acc : List Char) (hw : ∀ c ∈ w, isJsWs c = true)
    (hne : w ≠ []) :
    splitWsGo (w ++ r) acc = acc.reverse :: splitWsSkip r := by
  cases w with
  | nil => exact absurd rfl hne
  | cons c w' =>
    have hc := hw c (by simp)
    simp only [List.cons_append, splitWsGo, hc, if_true, List.append_eq]
    rw [splitWsSkip_ws w' (fun d hd => hw d (by simp [hd])) r]

theorem splitWsSkip_token (t r : List Char) (ht : ∀ c ∈ t, isJsWs c = false)
    (hne : t ≠ []) :
    splitWsSkip (t ++ r) = splitWsGo r t.reverse := by
  cases t with
  | nil => exact absurd rfl hne
  | cons c t' =>
    have hc := ht c (by simp)
    simp only [List.cons_append, splitWsSkip, hc, Bool.false_eq_true, if_false,
      List.append_eq]
    rw [splitWsGo_token t' (fun d hd => ht d (by simp [hd])) r [c]]
    simp

/-- `splitWs` of a line made of four whitespace-free tokens joined by
nonempty whitespace runs is exactly the four tokens. -/
theorem splitWs_four (t0 t1 t2 t3 w1 w2 w3 : List Char)
    (ht0 : ∀ c ∈ t0, isJsWs c = false) (ht1 : ∀ c ∈ t1, isJsWs c = false)
    (ht2 : ∀ c ∈ t2, isJsWs c = false) (ht3 : ∀ c ∈ t3, isJsWs c = false)
    (hw1 : ∀ c ∈ w1, isJsWs c = true) (hw2 : ∀ c ∈ w2, isJsWs c = true)
    (hw3 : ∀ c ∈ w3, isJsWs c = true)
    (hn1 : w1 ≠ []) (hn2 : w2 ≠ []) (hn3 : w3 ≠ [])
    (hm1 : t1 ≠ []) (hm2 : t2 ≠ []) (hm3 : t3 ≠ []) :
    splitWs (t0 ++ w1 ++ t1 ++ w2 ++ t2 ++ w3 ++ t3) = [t0, t1, t2, t3] := by
  unfold splitWs
  simp only [List.append_assoc]
  rw [splitWsGo_token t0 ht0]
  rw [splitWsGo_sep w1 _ _ hw1 hn1]
  rw [splitWsSkip_token t1 _ ht1 hm1]
  rw [splitWsGo_sep w2 _ _ hw2 hn2]
  rw [splitWsSkip_token t2 _ ht2 hm2]
  rw [splitWsGo_sep w3 _ _ hw3 hn3]
  conv_lhs => rw [show t3 = t3 ++ ([] : List Char) from (List.append_nil t3).symm]
  rw [splitWsSkip_token t3 _ ht3 hm3]
  simp [splitWsGo]

theorem parseSs_short_line (line : String) (proto : Protocol) (src : String)
    (hnl : ∀ c ∈ line.data, c ≠ '\n' ∧ c ≠ '\r')
    (hlt : (splitWs (jsTrim line.data)).length < 5) :
    parseSs line proto src = [] := by
  unfold parseSs
  rw [splitLines_single line.data hnl]
  by_cases he : (jsTrim line.data).isEmpty
  · simp [he]
  · simp only [List.map_cons, List.map_nil, List.filter_cons, he,
      Bool.not_false, if_true, List.filter_nil, List.filterMap_cons,
      List.filterMap_nil]
    simp [parseSsLine, hlt]

theorem parseNetstatLine_skip_non_listening (line : List Char)
    (proto : Protocol)
    (htcp : toLowerCL ((splitWs (jsTrim line)).getD 0 []) = "tcp".data)
    (hst : (splitWs (jsTrim line)).getD 3 [] ≠ [])
    (hnls : toLowerCL ((splitWs (jsTrim line)).getD 3 [])
      ≠ "listening".data) :
    parseNetstatLine proto line = none := by
  simp only [List.getD_eq_getElem?_getD] at htcp hst hnls
  unfold parseNetstatLine
  by_cases h0 : jsTrim line = []
  · simp [h0]
  · by_cases h1 : isPrefixCL "proto".data (toLowerCL (jsTrim line)) = true
    · simp [h0, h1]
    · by_cases h2 : isPrefixCL "active".data (toLowerCL (jsTrim line)) = true
      · simp [h0, h1, h2]
      · by_cases h3 : (splitWs (jsTrim line)).length < 4
        · simp [h0, h1, h2, h3]
        · simp [h0, h1, h2, h3, htcp]
          intro h5
          exact absurd (h5 hst) hnls

theorem parseNetstat_skip_non_listening (line : String) (proto : Protocol)
    (hnl : ∀ c ∈ line.data, c ≠ '\n' ∧ c ≠ '\r')
    (htcp : toLowerCL ((splitWs (jsTrim line.data)).getD 0 []) = "tcp".data)
    (hst : (splitWs (jsTrim line.data)).getD 3 [] ≠ [])
    (hnls : toLowerCL ((splitWs (jsTrim line.data)).getD 3 [])
      ≠ "listening".data) :
    parseNetstat line proto = [] := by
  unfold parseNetstat
  rw [splitLines_single line.data hnl]
  simp [parseNetstatLine_skip_non_listening line.data proto htcp hst hnls]

theorem not_newline_of_not_ws (c : Char) (h : isJsWs c = false) :
    c ≠ '\n' ∧ c ≠ '\r' := by
  constructor <;> rintro rfl <;> exact absurd h (by decide)

theorem parseNetstat_udp_kept
    (t0 t1 t2 t3 w1 w2 w3 : List Char) (proto : Protocol)
    (port pid : Int) (addr : List Char)
    (ht0 : ∀ c ∈ t0, isJsWs c = false) (ht1 : ∀ c ∈ t1, isJsWs c = false)
    (ht2 : ∀ c ∈ t2, isJsWs c = false) (ht3 : ∀ c ∈ t3, isJsWs c = false)
    (hw1 : ∀ c ∈ w1, isJsWs c = true ∧ c ≠ '\n' ∧ c ≠ '\r')
    (hw2 : ∀ c ∈ w2, isJsWs c = true ∧ c ≠ '\n' ∧ c ≠ '\r')
    (hw3 : ∀ c ∈ w3, isJsWs c = true ∧ c ≠ '\n' ∧ c ≠ '\r')
    (hn1 : w1 ≠ []) (hn2 : w2 ≠ []) (hn3 : w3 ≠ [])
    (hm1 : t1 ≠ []) (hm2 : t2 ≠ []) (hm3 : t3 ≠ [])
    (hudp : toLowerCL t0 = "udp".data)
    (haddr : parseWindowsAddressPort t1 = some (port, addr))
    (hport : ¬port = 0)
    (hpid : jsParseInt t3 = some pid) :
    parseNetstat (String.mk (t0 ++ w1 ++ t1 ++ w2 ++ t2 ++ w3 ++ t3)) proto
      = [{ protocol := proto, port := port, pid := pid,
           localAddress := some (String.mk addr),
           raw := some (String.mk (t0 ++ w1 ++ t1 ++ w2 ++ t2 ++ w3 ++ t3)),
           source := some "netstat" }] := by
  have hnl : ∀ c ∈ t0 ++ w1 ++ t1 ++ w2 ++ t2 ++ w3 ++ t3,
      c ≠ '\n' ∧ c ≠ '\r' := by
    intro c hc
    simp only [List.mem_append] at hc
    rcases hc with ((((((h | h) | h) | h) | h) | h) | h)
    · exact not_newline_of_not_ws c (ht0 c h)
    · exact (hw1 c h).2
    · exact not_newline_of_not_ws c (ht1 c h)
    · exact (hw2 c h).2
    · exact not_newline_of_not_ws c (ht2 c h)
    · exact (hw3 c h).2
    · exact not_newline_of_not_ws c (ht3 c h)
  obtain ⟨c0, t0', rfl⟩ : ∃ c0 t0', t0 = c0 :: t0' := by
    cases t0 with
    | nil => simp [toLowerCL] at hudp
    | cons a b => exact ⟨a, b, rfl⟩
  obtain ⟨t3i, c3, rfl⟩ : ∃ t3i c3, t3 = t3i ++ [c3] := by
    rcases List.eq_nil_or_concat t3 with h | ⟨L, b, h⟩
    · exact absurd h hm3
    · exact ⟨L, b, by simpa [List.concat_eq_append] using h⟩
  have htrim : jsTrim ((c0 :: t0') ++ w1 ++ t1 ++ w2 ++ t2 ++ w3 ++ (t3i ++ [c3]))
      = (c0 :: t0') ++ w1 ++ t1 ++ w2 ++ t2 ++ w3 ++ (t3i ++ [c3]) := by
    apply jsTrim_eq_self
    · intro c hc
      simp at hc
      rw [← hc]
      exact ht0 c0 (by simp)
    · intro c hc
      simp [List.reverse_append] at hc
      rw [← hc]
      exact ht3 c3 (by simp)
  have hsplit : splitWs ((c0 :: t0') ++ w1 ++ t1 ++ w2 ++ t2 ++ w3 ++ (t3i ++ [c3]))
      = [c0 :: t0', t1, t2, t3i ++ [c3]] :=
    splitWs_four _ _ _ _ _ _ _ ht0 ht1 ht2 ht3
      (fun c h => (hw1 c h).1) (fun c h => (hw2 c h).1) (fun c h => (hw3 c h).1)
      hn1 hn2 hn3 hm1 hm2 (by simp)
  have hlow : toLowerCL ((c0 :: t0') ++ w1 ++ t1 ++ w2 ++ t2 ++ w3 ++ (t3i ++ [c3]))
      = "udp".data ++ toLowerCL (w1 ++ t1 ++ w2 ++ t2 ++ w3 ++ (t3i ++ [c3])) := by
    rw [← hudp]
    simp [toLowerCL]
  have hg1 : isPrefixCL "proto".data
      (toLowerCL ((c0 :: t0') ++ w1 ++ t1 ++ w2 ++ t2 ++ w3 ++ (t3i ++ [c3])))
      = false := by
    rw [hlow]
    simp [isPrefixCL]
  have hg2 : isPrefixCL "active".data
      (toLowerCL ((c0 :: t0') ++ w1 ++ t1 ++ w2 ++ t2 ++ w3 ++ (t3i ++ [c3])))
      = false := by
    rw [hlow]
    simp [isPrefixCL]
  have hne : (c0 :: t0') ++ w1 ++ t1 ++ w2 ++ t2 ++ w3 ++ (t3i ++ [c3]) ≠ [] := by
    simp
  have hnotTcp : toLowerCL (c0 :: t0') ≠ "tcp".data := by
    rw [hudp]
    decide
  unfold parseNetstat
  show ((splitLines ((c0 :: t0') ++ w1 ++ t1 ++ w2 ++ t2 ++ w3 ++ (t3i ++ [c3]))).filterMap
    (parseNetstatLine proto)) = _
  rw [splitLines_single _ hnl]
  simp only [List.filterMap_cons, List.filterMap_nil]
  have hline : parseNetstatLine proto
      ((c0 :: t0') ++ w1 ++ t1 ++ w2 ++ t2 ++ w3 ++ (t3i ++ [c3]))
      = some { protocol := proto, port := port, pid := pid,
               localAddress := some (String.mk addr),
               raw := some (String.mk ((c0 :: t0') ++ w1 ++ t1 ++ w2 ++ t2
                 ++ w3 ++ (t3i ++ [c3]))),
               source := some "netstat" } := by
    unfold parseNetstatLine
    rw [htrim]
    simp only [List.append_assoc, List.cons_append] at hsplit hg1 hg2
    simp [hsplit, hne, hg1, hg2, hudp, hnotTcp, hpid, haddr, hport]
  rw [hline]

/-- C3 — Parser robustness (the parsers are total Lean functions, so no
line can raise): (a) an `ss` line — no embedded newlines — whose
whitespace-split has fewer than 5 fields yields no record; (b) a `netstat`
TCP line whose (present, nonempty) state column is not `LISTENING`
(e.g. `ESTABLISHED`) yields no record; (c) a `netstat` UDP row of four
whitespace-separated columns (no state column) is always kept when its
local address and PID parse. -/
theorem parser_robustness :
    (∀ (line : String) (proto : Protocol) (src : String),
      (∀ c ∈ line.data, c ≠ '\n' ∧ c ≠ '\r') →
      (splitWs (jsTrim line.data)).length < 5 →
      parseSs line proto src = []) ∧
    (∀ (line : String) (proto : Protocol),
      (∀ c ∈ line.data, c ≠ '\n' ∧ c ≠ '\r') →
      toLowerCL ((splitWs (jsTrim line.data)).getD 0 []) = "tcp".data →
      (splitWs (jsTrim line.data)).getD 3 [] ≠ [] →
      toLowerCL ((splitWs (jsTrim line.data)).getD 3 []) ≠ "listening".data →
      parseNetstat line proto = []) ∧
    (∀ (t0 t1 t2 t3 w1 w2 w3 : List Char) (proto : Protocol)
      (port pid : Int) (addr : List Char),
      (∀ c ∈ t0, isJsWs c = false) → (∀ c ∈ t1, isJsWs c = false) →
      (∀ c ∈ t2, isJsWs c = false) → (∀ c ∈ t3, isJsWs c = false) →
      (∀ c ∈ w1, isJsWs c = true ∧ c ≠ '\n' ∧ c ≠ '\r') →
      (∀ c ∈ w2, isJsWs c = true ∧ c ≠ '\n' ∧ c ≠ '\r') →
      (∀ c ∈ w3, isJsWs c = true ∧ c ≠ '\n' ∧ c ≠ '\r') →
      w1 ≠ [] → w2 ≠ [] → w3 ≠ [] → t1 ≠ [] → t2 ≠ [] → t3 ≠ [] →
      toLowerCL t0 = "udp".data →
      parseWindowsAddressPort t1 = some (port, addr) →
      ¬port = 0 →
      jsParseInt t3 = some pid →
      parseNetstat (String.mk (t0 ++ w1 ++ t1 ++ w2 ++ t2 ++ w3 ++ t3)) proto
        = [{ protocol := proto, port := port, pid := pid,
             localAddress := some (String.mk addr),
             raw := some (String.mk (t0 ++ w1 ++ t1 ++ w2 ++ t2 ++ w3 ++ t3)),
             source := some "netstat" }]) :=
  ⟨parseSs_short_line, parseNetstat_skip_non_listening, parseNetstat_udp_kept⟩

/-- C3 witness: a truncated `ss` line, an `ESTABLISHED` `netstat` TCP line,
and a concrete well-formed `netstat` UDP line. -/
theorem parser_robustness_witness :
    ((splitWs (jsTrim "LISTEN 0 128".data)).length < 5 ∧
      parseSs "LISTEN 0 128" .tcp "ss" = []) ∧
    (toLowerCL ((splitWs (jsTrim
        "TCP 127.0.0.1:3000 1.2.3.4:55 ESTABLISHED 948".data)).getD 0 [])
        = "tcp".data ∧
      parseNetstat "TCP 127.0.0.1:3000 1.2.3.4:55 ESTABLISHED 948" .tcp
        = []) ∧
    (parseWindowsAddressPort "0.0.0.0:5353".data
        = some (5353, "0.0.0.0".data) ∧
      jsParseInt "333".data = some 333 ∧
      parseNetstat (String.mk ("UDP".data ++ " ".data ++ "0.0.0.0:5353".data
          ++ " ".data ++ "*:*".data ++ " ".data ++ "333".data)) .udp
        = [{ protocol := .udp, port := 5353, pid := 333,
             localAddress := some (String.mk "0.0.0.0".data),
             raw := some (String.mk ("UDP".data ++ " ".data
               ++ "0.0.0.0:5353".data ++ " ".data ++ "*:*".data ++ " ".data
               ++ "333".data)),
             source := some "netstat" }]) := by
  refine ⟨⟨by decide, ?_⟩, ⟨by decide, ?_⟩, by decide, by decide, ?_⟩
  · exact parser_robustness.1 "LISTEN 0 128" .tcp "ss" (by decide) (by decide)
  · exact parser_robustness.2.1
      "TCP 127.0.0.1:3000 1.2.3.4:55 ESTABLISHED 948" .tcp
      (by decide) (by decide) (by decide) (by decide)
  · exact parser_robustness.2.2 "UDP".data "0.0.0.0:5353".data "*:*".data
      "333".data " ".data " ".data " ".data .udp 5353 333 "0.0.0.0".data
      (by decide) (by decide) (by decide) (by decide) (by decide) (by decide)
      (by decide) (by decide) (by decide) (by decide) (by decide) (by decide)
      (by decide) (by decide) (by decide) (by decide) (by decide)

end Kkp
